import Mathlib

/-!
Verification of the certificate data gatherer
(`pkg/controller/certificates/trigger/policies/gatherer.go`).

The Go function `(*Gatherer).DataForCertificate` looks up the certificate's
secret (tolerating NotFound), then queries the request store twice — once for
the "current" revision window and once for the "next" one — applying a
0/1/≥2 cardinality policy to each window, and assembles an `Input` value.
We embed the data model and the function shallowly and prove the spec's
claims about it.
-/

namespace CertGather

/-- A certificate, flattened from the Go `cmapi.Certificate`: object metadata
(namespace, name, uid), `spec.secretName` and `status.revision` (a `*int` in
Go, hence `Option Int`). -/
structure Certificate where
  ns : String
  name : String
  uid : Nat
  secretName : String
  revision : Option Int
deriving DecidableEq, Repr

/-- A certificate request, flattened from the Go `cmapi.CertificateRequest`:
object metadata (namespace, name), the owner reference (modelled by the
owning certificate's uid) and the revision annotation (an integer tag). -/
structure CertificateRequest where
  ns : String
  name : String
  ownerUID : Nat
  revision : Int
deriving DecidableEq, Repr

/-- A stored secret: identity plus an opaque payload. -/
structure Secret where
  ns : String
  name : String
  payload : String
deriving DecidableEq, Repr

/-- Outcome of `SecretLister.Secrets(ns).Get(name)`: the secret, a NotFound
error (`apierrors.IsNotFound`), or any other store error. -/
inductive SecretGetResult where
  | found (s : Secret)
  | notFound
  | failure (msg : String)
deriving DecidableEq, Repr

/-- Outcome of listing the certificate requests of a namespace from the
request store: the requests, or a store error. -/
inductive ListResult where
  | ok (reqs : List CertificateRequest)
  | failure (msg : String)
deriving DecidableEq, Repr

/-- The gatherer's two read-only collaborators, as functions of the store
state: `getSecret ns name` models `SecretLister.Secrets(ns).Get(name)` and
`listRequests ns` models listing all certificate requests of namespace
`ns` from `CertificateRequestLister`. -/
structure Gatherer where
  getSecret : String → String → SecretGetResult
  listRequests : String → ListResult

/-- Modelled from the spec: `predicate.ResourceOwnedBy(crt)` (the predicate
package is outside the provided source) — true when the request's owner
reference identifies the given certificate. -/
def resourceOwnedBy (crt : Certificate) (req : CertificateRequest) : Bool :=
  req.ownerUID == crt.uid

/-- Modelled from the spec: `predicate.CertificateRequestRevision(rev)` (the
predicate package is outside the provided source) — true when the request's
revision tag equals the queried revision exactly. -/
def certificateRequestRevision (rev : Int) (req : CertificateRequest) : Bool :=
  req.revision == rev

/-- The requests of `reqs` owned by `crt` and tagged with revision `rev`:
the conjunction of the two predicates applied as a filter. -/
def matchingReqs (reqs : List CertificateRequest) (crt : Certificate) (rev : Int) :
    List CertificateRequest :=
  reqs.filter (fun req => resourceOwnedBy crt req && certificateRequestRevision rev req)

/-- Modelled from the spec:
`certificates.ListCertificateRequestsMatchingPredicates` (outside the
provided source) — list the namespace's requests from the store and keep
those matching every predicate; a store failure propagates. -/
def listCertificateRequestsMatchingPredicates (g : Gatherer) (ns : String)
    (crt : Certificate) (rev : Int) : ListResult :=
  match g.listRequests ns with
  | .failure msg => .failure msg
  | .ok reqs => .ok (matchingReqs reqs crt rev)

/-- The errors `DataForCertificate` can return: a propagated store error, or
the `fmt.Errorf` ambiguity error naming the window ("current" or "next")
and the queried revision. -/
inductive Window where
  | current
  | next
deriving DecidableEq, Repr

/-- Error type for `dataForCertificate`; see `Window`. -/
inductive DataError where
  | storeError (msg : String)
  | ambiguous (w : Window) (revision : Int)
deriving DecidableEq, Repr

/-- The Go `Input` struct returned by `DataForCertificate`. In Go all four
fields are pointers, so each is an `Option`; the zero value `Input{}`
returned on error has every field nil. -/
structure Input where
  certificate : Option Certificate
  secret : Option Secret
  currentRevisionRequest : Option CertificateRequest
  nextRevisionRequest : Option CertificateRequest
deriving DecidableEq, Repr

/-- The Go zero value `Input{}`: every field nil. -/
def Input.empty : Input :=
  { certificate := none, secret := none,
    currentRevisionRequest := none, nextRevisionRequest := none }

/-- True exactly on the failure case of a secret lookup. -/
def SecretGetResult.isFailure : SecretGetResult → Bool
  | .failure _ => true
  | _ => false

/-- The secret carried by a lookup outcome, nil for NotFound or failure
(in Go, `Get` returns a nil pointer alongside any error). -/
def secretOptOf : SecretGetResult → Option Secret
  | .found s => some s
  | _ => none

/-- `nextCRRevision` as computed at lines 279–285 of the source: `1` when
`crt.Status.Revision` is nil, else `*crt.Status.Revision + 1`. -/
def nextRevision (crt : Certificate) : Int :=
  match crt.revision with
  | none => 1
  | some r => r + 1

/-- The tail of `DataForCertificate` from line 277: query the next-window
requests, fail on a store error, fail with the "next" ambiguity error when
more than one matches, otherwise assemble the final `Input`. -/
def dataAfterCurrent (g : Gatherer) (crt : Certificate) (secret : Option Secret)
    (curCR : Option CertificateRequest) : Input × Option DataError :=
  match listCertificateRequestsMatchingPredicates g crt.ns crt (nextRevision crt) with
  | .failure msg => (Input.empty, some (.storeError msg))
  | .ok reqs =>
    if 1 < reqs.length then
      (Input.empty, some (.ambiguous .next (nextRevision crt)))
    else
      ({ certificate := some crt, secret := secret,
         currentRevisionRequest := curCR,
         nextRevisionRequest := reqs.head? }, none)

/-- The middle of `DataForCertificate` from line 253: when the certificate's
revision is non-nil, query the current-window requests, fail on a store
error, fail with the "current" ambiguity error when more than one matches,
otherwise take the unique match (or nil) as the current request; when the
revision is nil the current window is never queried. -/
def dataAfterSecret (g : Gatherer) (crt : Certificate) (secret : Option Secret) :
    Input × Option DataError :=
  match crt.revision with
  | some r =>
    match listCertificateRequestsMatchingPredicates g crt.ns crt r with
    | .failure msg => (Input.empty, some (.storeError msg))
    | .ok reqs =>
      if 1 < reqs.length then
        (Input.empty, some (.ambiguous .current r))
      else
        dataAfterCurrent g crt secret reqs.head?
  | none => dataAfterCurrent g crt secret none

/-- `(*Gatherer).DataForCertificate` (lines 238–317): fetch the secret
tolerating NotFound, then resolve the current and next request windows.
Returned as the Go pair `(Input, error)`: on error the `Input` is the zero
value `Input{}`. -/
def dataForCertificate (g : Gatherer) (crt : Certificate) : Input × Option DataError :=
  match g.getSecret crt.ns crt.secretName with
  | .failure msg => (Input.empty, some (.storeError msg))
  | .found s => dataAfterSecret g crt (some s)
  | .notFound => dataAfterSecret g crt none

/-- Closed-form shape of a resolution pass over a store whose listing
succeeded with contents `all`: case analysis on the certificate's revision
and on the cardinality of each window's matches. -/
def resolveModel (secret : Option Secret) (all : List CertificateRequest)
    (crt : Certificate) : Input × Option DataError :=
  match crt.revision with
  | none =>
    if 1 < (matchingReqs all crt 1).length then
      (Input.empty, some (.ambiguous .next 1))
    else
      ({ certificate := some crt, secret := secret,
         currentRevisionRequest := none,
         nextRevisionRequest := (matchingReqs all crt 1).head? }, none)
  | some r =>
    if 1 < (matchingReqs all crt r).length then
      (Input.empty, some (.ambiguous .current r))
    else if 1 < (matchingReqs all crt (r + 1)).length then
      (Input.empty, some (.ambiguous .next (r + 1)))
    else
      ({ certificate := some crt, secret := secret,
         currentRevisionRequest := (matchingReqs all crt r).head?,
         nextRevisionRequest := (matchingReqs all crt (r + 1)).head? }, none)

/-- When the secret lookup is not a store failure and the request listing
succeeds, `dataForCertificate` equals the closed-form `resolveModel`. -/
theorem dataForCertificate_eq_resolveModel (g : Gatherer) (crt : Certificate)
    (all : List CertificateRequest)
    (hsec : (g.getSecret crt.ns crt.secretName).isFailure = false)
    (hlist : g.listRequests crt.ns = .ok all) :
    dataForCertificate g crt =
      resolveModel (secretOptOf (g.getSecret crt.ns crt.secretName)) all crt := by
  have after_current : ∀ secret curCR,
      dataAfterCurrent g crt secret curCR =
        if 1 < (matchingReqs all crt (nextRevision crt)).length then
          (Input.empty, some (.ambiguous .next (nextRevision crt)))
        else
          ({ certificate := some crt, secret := secret,
             currentRevisionRequest := curCR,
             nextRevisionRequest := (matchingReqs all crt (nextRevision crt)).head? },
           none) := by
    intro secret curCR
    simp only [dataAfterCurrent, listCertificateRequestsMatchingPredicates, hlist]
  have after_secret : ∀ secret,
      dataAfterSecret g crt secret = resolveModel secret all crt := by
    intro secret
    cases hrev : crt.revision with
    | none =>
      simp only [dataAfterSecret, hrev, after_current, resolveModel, nextRevision]
    | some r =>
      simp only [dataAfterSecret, hrev, listCertificateRequestsMatchingPredicates,
        hlist, resolveModel]
      by_cases hcur : 1 < (matchingReqs all crt r).length
      · simp [hcur]
      · simp only [hcur, if_false, after_current, nextRevision, hrev]
  cases hgs : g.getSecret crt.ns crt.secretName with
  | failure msg => simp [SecretGetResult.isFailure, hgs] at hsec
  | found s => simp only [dataForCertificate, hgs, after_secret, secretOptOf]
  | notFound => simp only [dataForCertificate, hgs, after_secret, secretOptOf]

/-- Every request kept by the window filter is owned by the certificate. -/
theorem mem_matchingReqs_owned {all : List CertificateRequest} {crt : Certificate}
    {rev : Int} {x : CertificateRequest} (h : x ∈ matchingReqs all crt rev) :
    resourceOwnedBy crt x = true := by
  have := List.of_mem_filter h
  exact (Bool.and_eq_true _ _ ▸ this).1

/-- A request not owned by the certificate is dropped by the window filter:
prepending it to the store leaves every window's matches unchanged. -/
theorem matchingReqs_cons_not_owned {crt : Certificate} {x : CertificateRequest}
    (all : List CertificateRequest) (rev : Int)
    (h : resourceOwnedBy crt x = false) :
    matchingReqs (x :: all) crt rev = matchingReqs all crt rev := by
  simp [matchingReqs, List.filter_cons, h]

/-- The head of a list, when present, is a member of it. -/
theorem head?_mem {α : Type} {l : List α} {x : α} (h : l.head? = some x) : x ∈ l := by
  cases l with
  | nil => simp at h
  | cons a t => simp at h; simp [h]

/-- A resolution pass that returns no error carries the input certificate in
the view, and only owned requests in the two request fields. -/
theorem resolveModel_success {secret : Option Secret}
    {all : List CertificateRequest} {crt : Certificate} {inp : Input}
    (h : resolveModel secret all crt = (inp, none)) :
    inp.certificate = some crt ∧
    (∀ x, inp.currentRevisionRequest = some x → resourceOwnedBy crt x = true) ∧
    (∀ x, inp.nextRevisionRequest = some x → resourceOwnedBy crt x = true) := by
  unfold resolveModel at h
  split at h
  · split at h
    · injection h with h1 h2
      exact Option.noConfusion h2
    · injection h with h1 h2
      rw [← h1]
      refine ⟨rfl, ?_, ?_⟩
      · intro x hx
        exact Option.noConfusion hx
      · intro x hx
        exact mem_matchingReqs_owned (head?_mem hx)
  · split at h
    · injection h with h1 h2
      exact Option.noConfusion h2
    · split at h
      · injection h with h1 h2
        exact Option.noConfusion h2
      · injection h with h1 h2
        rw [← h1]
        refine ⟨rfl, ?_, ?_⟩
        · intro x hx
          exact mem_matchingReqs_owned (head?_mem hx)
        · intro x hx
          exact mem_matchingReqs_owned (head?_mem hx)

/-- Every error branch of the next-window step returns the zero `Input`. -/
theorem dataAfterCurrent_error {g : Gatherer} {crt : Certificate}
    {secret : Option Secret} {curCR : Option CertificateRequest}
    {inp : Input} {e : DataError}
    (h : dataAfterCurrent g crt secret curCR = (inp, some e)) : inp = Input.empty := by
  unfold dataAfterCurrent at h
  split at h
  · injection h with h1 h2
    exact h1.symm
  · split at h
    · injection h with h1 h2
      exact h1.symm
    · injection h with h1 h2
      exact Option.noConfusion h2

/-- Every error branch of the current-window step returns the zero `Input`. -/
theorem dataAfterSecret_error {g : Gatherer} {crt : Certificate}
    {secret : Option Secret} {inp : Input} {e : DataError}
    (h : dataAfterSecret g crt secret = (inp, some e)) : inp = Input.empty := by
  unfold dataAfterSecret at h
  split at h
  · split at h
    · injection h with h1 h2
      exact h1.symm
    · split at h
      · injection h with h1 h2
        exact h1.symm
      · exact dataAfterCurrent_error h
  · exact dataAfterCurrent_error h

/-- A successful next-window step carries the input certificate in the view. -/
theorem dataAfterCurrent_success {g : Gatherer} {crt : Certificate}
    {secret : Option Secret} {curCR : Option CertificateRequest} {inp : Input}
    (h : dataAfterCurrent g crt secret curCR = (inp, none)) :
    inp.certificate = some crt := by
  unfold dataAfterCurrent at h
  split at h
  · injection h with h1 h2
    exact Option.noConfusion h2
  · split at h
    · injection h with h1 h2
      exact Option.noConfusion h2
    · injection h with h1 h2
      rw [← h1]

/-- A successful current-window step carries the input certificate. -/
theorem dataAfterSecret_success {g : Gatherer} {crt : Certificate}
    {secret : Option Secret} {inp : Input}
    (h : dataAfterSecret g crt secret = (inp, none)) :
    inp.certificate = some crt := by
  unfold dataAfterSecret at h
  split at h
  · split at h
    · injection h with h1 h2
      exact Option.noConfusion h2
    · split at h
      · injection h with h1 h2
        exact Option.noConfusion h2
      · exact dataAfterCurrent_success h
  · exact dataAfterCurrent_success h

/-- Fixture: a certificate request in namespace "ns". -/
def mkReq (nm : String) (owner : Nat) (rev : Int) : CertificateRequest :=
  { ns := "ns", name := nm, ownerUID := owner, revision := rev }

/-- Fixture: a certificate at revision 7, uid 1. -/
def cert7 : Certificate :=
  { ns := "ns", name := "cert", uid := 1, secretName := "tls", revision := some 7 }

/-- Fixture: a certificate with nil revision, uid 1. -/
def certNil : Certificate :=
  { ns := "ns", name := "cert", uid := 1, secretName := "tls", revision := none }

/-- Fixture: a certificate at revision 0, uid 1. -/
def cert0 : Certificate :=
  { ns := "ns", name := "cert", uid := 1, secretName := "tls", revision := some 0 }

/-- Fixture: a gatherer whose secret store always answers `sres` and whose
request store always lists `reqs`. -/
def gWith (sres : SecretGetResult) (reqs : List CertificateRequest) : Gatherer :=
  { getSecret := fun _ _ => sres, listRequests := fun _ => .ok reqs }

/-- C1: for every certificate and store state, if the request store yields
two or more requests owned by the certificate for a queried window (the
current window, or the next window once the current one passed), resolution
fails with the ambiguity error naming that window and the exact revision
queried, returns the zero view, and picks no duplicate; the error carries no
duplicate count, so any count of at least 2 produces the same error. -/
theorem c1_duplicates_cause_ambiguity_error (g : Gatherer) (crt : Certificate)
    (all : List CertificateRequest) (r : Int)
    (hsec : (g.getSecret crt.ns crt.secretName).isFailure = false)
    (hlist : g.listRequests crt.ns = .ok all) :
    (crt.revision = some r → 2 ≤ (matchingReqs all crt r).length →
      dataForCertificate g crt = (Input.empty, some (.ambiguous .current r))) ∧
    ((∀ rc, crt.revision = some rc → (matchingReqs all crt rc).length ≤ 1) →
      2 ≤ (matchingReqs all crt (nextRevision crt)).length →
      dataForCertificate g crt =
        (Input.empty, some (.ambiguous .next (nextRevision crt)))) := by
  have hchar := dataForCertificate_eq_resolveModel g crt all hsec hlist
  constructor
  · intro hrev hlen
    rw [hchar]
    simp only [resolveModel, hrev]
    rw [if_pos (by omega)]
  · intro hcur hlen
    rw [hchar]
    cases hrev : crt.revision with
    | none =>
      simp only [nextRevision, hrev] at hlen
      simp only [resolveModel, nextRevision, hrev]
      rw [if_pos (by omega)]
    | some rc =>
      have h1 := hcur rc hrev
      simp only [nextRevision, hrev] at hlen
      simp only [resolveModel, nextRevision, hrev]
      rw [if_neg (by omega), if_pos (by omega)]

/-- Witness for C1: revision 7 with two owned requests at revision 7 yields
the "current" ambiguity error at revision 7 and the zero view. -/
theorem c1_witness :
    dataForCertificate (gWith .notFound [mkReq "a" 1 7, mkReq "b" 1 7]) cert7 =
      (Input.empty, some (.ambiguous .current 7)) :=
  (c1_duplicates_cause_ambiguity_error (gWith .notFound [mkReq "a" 1 7, mkReq "b" 1 7])
      cert7 [mkReq "a" 1 7, mkReq "b" 1 7] 7 rfl rfl).1 rfl (by decide)

/-- C2: for every certificate with nil revision, the current window is never
queried and the current-request field is nil, and the next-window query uses
revision 1: the outcome is entirely a function of the revision-1 matches,
whatever requests exist at other revisions. -/
theorem c2_nil_revision_skips_current (g : Gatherer) (crt : Certificate)
    (all : List CertificateRequest)
    (hrev : crt.revision = none)
    (hsec : (g.getSecret crt.ns crt.secretName).isFailure = false)
    (hlist : g.listRequests crt.ns = .ok all) :
    nextRevision crt = 1 ∧
    dataForCertificate g crt =
      (if 1 < (matchingReqs all crt 1).length then
        (Input.empty, some (.ambiguous .next 1))
      else
        ({ certificate := some crt,
           secret := secretOptOf (g.getSecret crt.ns crt.secretName),
           currentRevisionRequest := none,
           nextRevisionRequest := (matchingReqs all crt 1).head? }, none)) := by
  refine ⟨by simp [nextRevision, hrev], ?_⟩
  rw [dataForCertificate_eq_resolveModel g crt all hsec hlist]
  simp only [resolveModel, hrev]

/-- Witness for C2: a nil-revision certificate with one owned request at
revision 1 resolves with a nil current request and that request as next. -/
theorem c2_witness :
    nextRevision certNil = 1 ∧
    dataForCertificate (gWith .notFound [mkReq "a" 1 1]) certNil =
      (if 1 < (matchingReqs [mkReq "a" 1 1] certNil 1).length then
        (Input.empty, some (.ambiguous .next 1))
      else
        ({ certificate := some certNil,
           secret := secretOptOf
             ((gWith .notFound [mkReq "a" 1 1]).getSecret certNil.ns certNil.secretName),
           currentRevisionRequest := none,
           nextRevisionRequest := (matchingReqs [mkReq "a" 1 1] certNil 1).head? }, none)) :=
  c2_nil_revision_skips_current (gWith .notFound [mkReq "a" 1 1]) certNil
    [mkReq "a" 1 1] rfl rfl rfl

/-- C3: for every certificate whose revision is an integer R with R ≥ 1,
the current window is queried at exactly revision R and the next window at
exactly revision R + 1, each with the 0/1/≥2 cardinality policy. -/
theorem c3_revision_window_queries (g : Gatherer) (crt : Certificate)
    (all : List CertificateRequest) (r : Int)
    (hrev : crt.revision = some r) (hr : 1 ≤ r)
    (hsec : (g.getSecret crt.ns crt.secretName).isFailure = false)
    (hlist : g.listRequests crt.ns = .ok all) :
    nextRevision crt = r + 1 ∧
    dataForCertificate g crt =
      (if 1 < (matchingReqs all crt r).length then
        (Input.empty, some (.ambiguous .current r))
      else if 1 < (matchingReqs all crt (r + 1)).length then
        (Input.empty, some (.ambiguous .next (r + 1)))
      else
        ({ certificate := some crt,
           secret := secretOptOf (g.getSecret crt.ns crt.secretName),
           currentRevisionRequest := (matchingReqs all crt r).head?,
           nextRevisionRequest := (matchingReqs all crt (r + 1)).head? }, none)) := by
  refine ⟨by simp [nextRevision, hrev], ?_⟩
  rw [dataForCertificate_eq_resolveModel g crt all hsec hlist]
  simp only [resolveModel, hrev]

/-- Witness for C3: revision 7 with one owned request at revision 7 and one
at revision 8 resolves with both fields populated from those revisions. -/
theorem c3_witness :
    nextRevision cert7 = 7 + 1 ∧
    dataForCertificate (gWith .notFound [mkReq "a" 1 7, mkReq "b" 1 8]) cert7 =
      (if 1 < (matchingReqs [mkReq "a" 1 7, mkReq "b" 1 8] cert7 7).length then
        (Input.empty, some (.ambiguous .current 7))
      else if 1 < (matchingReqs [mkReq "a" 1 7, mkReq "b" 1 8] cert7 (7 + 1)).length then
        (Input.empty, some (.ambiguous .next (7 + 1)))
      else
        ({ certificate := some cert7,
           secret := secretOptOf
             ((gWith .notFound [mkReq "a" 1 7, mkReq "b" 1 8]).getSecret cert7.ns cert7.secretName),
           currentRevisionRequest := (matchingReqs [mkReq "a" 1 7, mkReq "b" 1 8] cert7 7).head?,
           nextRevisionRequest :=
             (matchingReqs [mkReq "a" 1 7, mkReq "b" 1 8] cert7 (7 + 1)).head? }, none)) :=
  c3_revision_window_queries (gWith .notFound [mkReq "a" 1 7, mkReq "b" 1 8]) cert7
    [mkReq "a" 1 7, mkReq "b" 1 8] 7 rfl (by decide) rfl rfl

/-- When each queried window has at most one match, resolution succeeds and
each request field is the head of its window's matches (so nil for zero
matches and the unique store object for one match). -/
theorem dataForCertificate_unambiguous (g : Gatherer) (crt : Certificate)
    (all : List CertificateRequest)
    (hsec : (g.getSecret crt.ns crt.secretName).isFailure = false)
    (hlist : g.listRequests crt.ns = .ok all)
    (hcur : ∀ r, crt.revision = some r → (matchingReqs all crt r).length ≤ 1)
    (hnext : (matchingReqs all crt (nextRevision crt)).length ≤ 1) :
    dataForCertificate g crt =
      ({ certificate := some crt,
         secret := secretOptOf (g.getSecret crt.ns crt.secretName),
         currentRevisionRequest :=
           match crt.revision with
           | none => none
           | some r => (matchingReqs all crt r).head?,
         nextRevisionRequest := (matchingReqs all crt (nextRevision crt)).head? }, none) := by
  rw [dataForCertificate_eq_resolveModel g crt all hsec hlist]
  cases hrev : crt.revision with
  | none =>
    simp only [nextRevision, hrev] at hnext
    simp only [resolveModel, nextRevision, hrev]
    rw [if_neg (by omega)]
  | some r =>
    have h1 := hcur r hrev
    simp only [nextRevision, hrev] at hnext
    simp only [resolveModel, nextRevision, hrev]
    rw [if_neg (by omega), if_neg (by omega)]

/-- C4: for every queried window with at most one match, no error is raised;
a zero-match window leaves its field nil and a one-match window puts the
unique store object itself in the field (each field is the head of its
window's match list). -/
theorem c4_zero_or_one_match (g : Gatherer) (crt : Certificate)
    (all : List CertificateRequest)
    (hsec : (g.getSecret crt.ns crt.secretName).isFailure = false)
    (hlist : g.listRequests crt.ns = .ok all)
    (hcur : ∀ r, crt.revision = some r → (matchingReqs all crt r).length ≤ 1)
    (hnext : (matchingReqs all crt (nextRevision crt)).length ≤ 1) :
    dataForCertificate g crt =
      ({ certificate := some crt,
         secret := secretOptOf (g.getSecret crt.ns crt.secretName),
         currentRevisionRequest :=
           match crt.revision with
           | none => none
           | some r => (matchingReqs all crt r).head?,
         nextRevisionRequest := (matchingReqs all crt (nextRevision crt)).head? }, none) :=
  dataForCertificate_unambiguous g crt all hsec hlist hcur hnext

/-- Witness for C4: revision 7 with exactly one owned request at revision 7
and none at revision 8 resolves without error, with the unique object as the
current request and a nil next request. -/
theorem c4_witness :
    dataForCertificate (gWith .notFound [mkReq "a" 1 7]) cert7 =
      ({ certificate := some cert7,
         secret := secretOptOf
           ((gWith .notFound [mkReq "a" 1 7]).getSecret cert7.ns cert7.secretName),
         currentRevisionRequest :=
           match cert7.revision with
           | none => none
           | some r => (matchingReqs [mkReq "a" 1 7] cert7 r).head?,
         nextRevisionRequest :=
           (matchingReqs [mkReq "a" 1 7] cert7 (nextRevision cert7)).head? }, none) :=
  c4_zero_or_one_match (gWith .notFound [mkReq "a" 1 7]) cert7 [mkReq "a" 1 7]
    rfl rfl
    (by
      intro r hr
      simp only [cert7] at hr
      injection hr with h
      subst h
      decide)
    (by decide)

/-- C5: a NotFound secret lookup is tolerated — resolution succeeds with a
nil secret field — while any other secret-store failure makes resolution
fail with exactly that error. -/
theorem c5_secret_absent_vs_failure (g : Gatherer) (crt : Certificate)
    (all : List CertificateRequest)
    (hlist : g.listRequests crt.ns = .ok all)
    (hcur : ∀ r, crt.revision = some r → (matchingReqs all crt r).length ≤ 1)
    (hnext : (matchingReqs all crt (nextRevision crt)).length ≤ 1) :
    (g.getSecret crt.ns crt.secretName = .notFound →
      dataForCertificate g crt =
        ({ certificate := some crt,
           secret := none,
           currentRevisionRequest :=
             match crt.revision with
             | none => none
             | some r => (matchingReqs all crt r).head?,
           nextRevisionRequest := (matchingReqs all crt (nextRevision crt)).head? }, none)) ∧
    (∀ msg, g.getSecret crt.ns crt.secretName = .failure msg →
      dataForCertificate g crt = (Input.empty, some (.storeError msg))) := by
  constructor
  · intro hnf
    have hsec : (g.getSecret crt.ns crt.secretName).isFailure = false := by
      rw [hnf]; rfl
    have h := dataForCertificate_unambiguous g crt all hsec hlist hcur hnext
    rw [hnf] at h
    exact h
  · intro msg hm
    simp only [dataForCertificate, hm]

/-- Witness for C5: with an absent secret and one owned request at revision
1, a nil-revision certificate resolves without error and a nil secret. -/
theorem c5_witness :
    ((gWith .notFound [mkReq "a" 1 1]).getSecret certNil.ns certNil.secretName = .notFound →
      dataForCertificate (gWith .notFound [mkReq "a" 1 1]) certNil =
        ({ certificate := some certNil,
           secret := none,
           currentRevisionRequest :=
             match certNil.revision with
             | none => none
             | some r => (matchingReqs [mkReq "a" 1 1] certNil r).head?,
           nextRevisionRequest :=
             (matchingReqs [mkReq "a" 1 1] certNil (nextRevision certNil)).head? }, none)) ∧
    (∀ msg, (gWith .notFound [mkReq "a" 1 1]).getSecret certNil.ns certNil.secretName = .failure msg →
      dataForCertificate (gWith .notFound [mkReq "a" 1 1]) certNil =
        (Input.empty, some (.storeError msg))) :=
  c5_secret_absent_vs_failure (gWith .notFound [mkReq "a" 1 1]) certNil [mkReq "a" 1 1]
    rfl
    (by intro r hr; exact Option.noConfusion hr)
    (by decide)

/-- C6: a request whose revision matches a queried window but whose owner
reference does not identify the certificate is never counted — adding it to
the store changes nothing — and never populates the current or next field. -/
theorem c6_foreign_owner_ignored (g gp : Gatherer) (crt : Certificate)
    (x : CertificateRequest) (all : List CertificateRequest)
    (hsame : g.getSecret = gp.getSecret)
    (hlist : g.listRequests crt.ns = .ok all)
    (hlistp : gp.listRequests crt.ns = .ok (x :: all))
    (hown : resourceOwnedBy crt x = false)
    (hsec : (g.getSecret crt.ns crt.secretName).isFailure = false) :
    dataForCertificate g crt = dataForCertificate gp crt ∧
    (∀ inp, dataForCertificate gp crt = (inp, none) →
      inp.currentRevisionRequest ≠ some x ∧ inp.nextRevisionRequest ≠ some x) := by
  have hsecp : (gp.getSecret crt.ns crt.secretName).isFailure = false := by
    rw [← hsame]; exact hsec
  have h1 := dataForCertificate_eq_resolveModel g crt all hsec hlist
  have h2 := dataForCertificate_eq_resolveModel gp crt (x :: all) hsecp hlistp
  have hmm : ∀ rev : Int, matchingReqs (x :: all) crt rev = matchingReqs all crt rev :=
    fun rev => matchingReqs_cons_not_owned all rev hown
  have hmodel : resolveModel (secretOptOf (gp.getSecret crt.ns crt.secretName)) (x :: all) crt
      = resolveModel (secretOptOf (g.getSecret crt.ns crt.secretName)) all crt := by
    rw [hsame]
    unfold resolveModel
    simp only [hmm]
  constructor
  · rw [h1, h2, hmodel]
  · intro inp hnone
    rw [h2, hmodel] at hnone
    obtain ⟨-, hc, hn⟩ := resolveModel_success hnone
    constructor
    · intro hx
      have hcontra := hc x hx
      rw [hown] at hcontra
      exact Bool.noConfusion hcontra
    · intro hx
      have hcontra := hn x hx
      rw [hown] at hcontra
      exact Bool.noConfusion hcontra

/-- Witness for C6: adding a revision-7 request owned by uid 2 to the store
of a uid-1 certificate at revision 7 changes nothing, and the resolved
fields never hold the foreign request. -/
theorem c6_witness :
    dataForCertificate (gWith .notFound [mkReq "a" 1 7]) cert7 =
      dataForCertificate (gWith .notFound [mkReq "z" 2 7, mkReq "a" 1 7]) cert7 ∧
    (∀ inp, dataForCertificate (gWith .notFound [mkReq "z" 2 7, mkReq "a" 1 7]) cert7 =
        (inp, none) →
      inp.currentRevisionRequest ≠ some (mkReq "z" 2 7) ∧
      inp.nextRevisionRequest ≠ some (mkReq "z" 2 7)) :=
  c6_foreign_owner_ignored (gWith .notFound [mkReq "a" 1 7])
    (gWith .notFound [mkReq "z" 2 7, mkReq "a" 1 7]) cert7
    (mkReq "z" 2 7) [mkReq "a" 1 7] rfl rfl rfl (by decide) rfl

/-- C7: whenever resolution returns an error — a secret-store failure, a
request-store failure, or an ambiguity in either window — the returned view
is the zero `Input`: every field nil, including the already-fetched secret. -/
theorem c7_error_returns_empty_view (g : Gatherer) (crt : Certificate)
    (inp : Input) (e : DataError)
    (h : dataForCertificate g crt = (inp, some e)) :
    inp = Input.empty := by
  unfold dataForCertificate at h
  split at h
  · injection h with h1 h2
    exact h1.symm
  · exact dataAfterSecret_error h
  · exact dataAfterSecret_error h

/-- Witness for C7: a failing secret store makes resolution return the zero
view alongside the propagated store error. -/
theorem c7_witness :
    (dataForCertificate (gWith (.failure "boom") []) cert7).1 = Input.empty :=
  c7_error_returns_empty_view (gWith (.failure "boom") []) cert7
    (dataForCertificate (gWith (.failure "boom") []) cert7).1
    (.storeError "boom") rfl

/-- C8: when both windows of a revision-R certificate hold duplicates, the
current-window check fires first: the error names the current window at
revision R, and the next window is never reached. -/
theorem c8_current_ambiguity_first (g : Gatherer) (crt : Certificate)
    (all : List CertificateRequest) (r : Int)
    (hrev : crt.revision = some r)
    (hsec : (g.getSecret crt.ns crt.secretName).isFailure = false)
    (hlist : g.listRequests crt.ns = .ok all)
    (hcur2 : 2 ≤ (matchingReqs all crt r).length)
    (hnext2 : 2 ≤ (matchingReqs all crt (r + 1)).length) :
    dataForCertificate g crt = (Input.empty, some (.ambiguous .current r)) := by
  rw [dataForCertificate_eq_resolveModel g crt all hsec hlist]
  simp only [resolveModel, hrev]
  rw [if_pos (by omega)]

/-- Witness for C8: duplicates at revisions 7 and 8 of a revision-7
certificate produce the "current" ambiguity error at revision 7. -/
theorem c8_witness :
    dataForCertificate
      (gWith .notFound [mkReq "a" 1 7, mkReq "b" 1 7, mkReq "c" 1 8, mkReq "d" 1 8])
      cert7 = (Input.empty, some (.ambiguous .current 7)) :=
  c8_current_ambiguity_first
    (gWith .notFound [mkReq "a" 1 7, mkReq "b" 1 7, mkReq "c" 1 8, mkReq "d" 1 8])
    cert7 [mkReq "a" 1 7, mkReq "b" 1 7, mkReq "c" 1 8, mkReq "d" 1 8] 7
    rfl rfl rfl (by decide) (by decide)

/-- C9: a non-nil revision R outside the spec's stated range (R ≤ 0) is not
rejected: the current window is still queried at exactly R and the next
window at exactly R + 1, with the same 0/1/≥2 cardinality policy. -/
theorem c9_out_of_range_revision_accepted (g : Gatherer) (crt : Certificate)
    (all : List CertificateRequest) (r : Int)
    (hrev : crt.revision = some r) (hr : r ≤ 0)
    (hsec : (g.getSecret crt.ns crt.secretName).isFailure = false)
    (hlist : g.listRequests crt.ns = .ok all) :
    nextRevision crt = r + 1 ∧
    dataForCertificate g crt =
      (if 1 < (matchingReqs all crt r).length then
        (Input.empty, some (.ambiguous .current r))
      else if 1 < (matchingReqs all crt (r + 1)).length then
        (Input.empty, some (.ambiguous .next (r + 1)))
      else
        ({ certificate := some crt,
           secret := secretOptOf (g.getSecret crt.ns crt.secretName),
           currentRevisionRequest := (matchingReqs all crt r).head?,
           nextRevisionRequest := (matchingReqs all crt (r + 1)).head? }, none)) := by
  refine ⟨by simp [nextRevision, hrev], ?_⟩
  rw [dataForCertificate_eq_resolveModel g crt all hsec hlist]
  simp only [resolveModel, hrev]

/-- Witness for C9: a certificate at revision 0 is resolved by querying
revisions 0 and 1, here finding one owned request at each. -/
theorem c9_witness :
    nextRevision cert0 = 0 + 1 ∧
    dataForCertificate (gWith .notFound [mkReq "a" 1 0, mkReq "b" 1 1]) cert0 =
      (if 1 < (matchingReqs [mkReq "a" 1 0, mkReq "b" 1 1] cert0 0).length then
        (Input.empty, some (.ambiguous .current 0))
      else if 1 < (matchingReqs [mkReq "a" 1 0, mkReq "b" 1 1] cert0 (0 + 1)).length then
        (Input.empty, some (.ambiguous .next (0 + 1)))
      else
        ({ certificate := some cert0,
           secret := secretOptOf
             ((gWith .notFound [mkReq "a" 1 0, mkReq "b" 1 1]).getSecret cert0.ns cert0.secretName),
           currentRevisionRequest :=
             (matchingReqs [mkReq "a" 1 0, mkReq "b" 1 1] cert0 0).head?,
           nextRevisionRequest :=
             (matchingReqs [mkReq "a" 1 0, mkReq "b" 1 1] cert0 (0 + 1)).head? }, none)) :=
  c9_out_of_range_revision_accepted (gWith .notFound [mkReq "a" 1 0, mkReq "b" 1 1])
    cert0 [mkReq "a" 1 0, mkReq "b" 1 1] 0 rfl (by decide) rfl rfl

/-- C10: resolution is deterministic — two gatherers whose secret and
request stores answer identically produce identical results — and any
successful view carries exactly the input certificate. -/
theorem c10_deterministic (g gp : Gatherer) (crt : Certificate)
    (hsec : g.getSecret = gp.getSecret)
    (hreq : g.listRequests = gp.listRequests) :
    dataForCertificate g crt = dataForCertificate gp crt ∧
    (∀ inp, dataForCertificate g crt = (inp, none) → inp.certificate = some crt) := by
  constructor
  · obtain ⟨gs, lr⟩ := g
    obtain ⟨gsp, lrp⟩ := gp
    have h1 : gs = gsp := hsec
    have h2 : lr = lrp := hreq
    subst h1
    subst h2
    rfl
  · intro inp h
    unfold dataForCertificate at h
    split at h
    · injection h with h1 h2
      exact Option.noConfusion h2
    · exact dataAfterSecret_success h
    · exact dataAfterSecret_success h

/-- Witness for C10: two identically-stocked gatherers resolve a nil-revision
certificate identically, and the successful view holds that certificate. -/
theorem c10_witness :
    dataForCertificate (gWith .notFound [mkReq "a" 1 1]) certNil =
      dataForCertificate (gWith .notFound [mkReq "a" 1 1]) certNil ∧
    (∀ inp, dataForCertificate (gWith .notFound [mkReq "a" 1 1]) certNil = (inp, none) →
      inp.certificate = some certNil) :=
  c10_deterministic (gWith .notFound [mkReq "a" 1 1]) (gWith .notFound [mkReq "a" 1 1])
    certNil rfl rfl

end CertGather
